import Mathlib

/-!
Shallow embedding of `findorf/contig.py` (the `Contig` class and its helper
`_HSP_to_dict`), together with theorems checking the natural-language
specification of the repository against this code.

Conventions of the embedding:

* The module is Python 2 code (2012-era project; it uses the
  `identities/float(align_length)` idiom and relies on Python 2
  cross-type comparison in `inconsistent_strand`).  Python exceptions are
  modelled with `Except PyErr`; functions that cannot raise are pure.
* BLAST coordinates and frames are `Int`; expect values and thresholds are
  `ℚ` (the source compares floats only with `<=`, so rationals are a
  faithful carrier); `identities` and `align_length` are `Nat`.
* `collections.Counter` tallies keyed by booleans are modelled as explicit
  pairs of counters.
* The external library `BioRanges.lightweight` (`Range`, `SeqRange`,
  `SeqRanges`) is not part of this repository's sources; the fields a
  `SeqRange` carries, and the attributes the code reads from it, are
  modelled from the spec where marked `Modelled from the spec:`.
* The Python attribute `end` of a range is named `stop` here (`end` is a
  Lean keyword).
-/

deriving instance DecidableEq for Except

namespace Findorf

/-- Python exceptions that the code in `contig.py` can raise. -/
inductive PyErr where
  | attributeError (name : String)
  | assertionError
  | keyError
  | typeError
  | indexError
  | zeroDivisionError
deriving DecidableEq

/-- One HSP as exposed by BioPython's BLAST record: 1-based inclusive
query/subject coordinates, a `(frame, frame2)` pair, expect value and
identity statistics (spec §6). -/
structure BlastHSP where
  query_start : Int
  query_end : Int
  sbjct_start : Int
  sbjct_end : Int
  frame : Int × Int
  expect : ℚ
  identities : Nat
  align_length : Nat
deriving DecidableEq

/-- One alignment of a BLAST record: a title and its ordered HSP list. -/
structure BlastAlignment where
  title : String
  hsps : List BlastHSP
deriving DecidableEq

/-- The per-relative BLAST record: a ranked list of alignments. -/
structure BlastRecord where
  alignments : List BlastAlignment
deriving DecidableEq

/-- A stored HSP record: the `SeqRange` built in `add_alignment`, with the
`data` dictionary fields flattened into the structure.  `start`/`stop`
embed the range coordinates (`stop` stands for the Python attribute
`end`), `seqlength` the contig length passed at construction. -/
structure SeqRange where
  start : Int
  stop : Int
  seqname : String
  strand : String
  seqlength : Int
  expect : ℚ
  identities : Nat
  align_length : Nat
  percent_identity : ℚ
  sbjct_start : Int
  sbjct_end : Int
  frame : Int
  relative : String
  title : String
deriving DecidableEq

/-- The sequence record a `Contig` wraps (id, description, sequence). -/
structure SeqRecord where
  id : String
  description : String
  seq : String
deriving DecidableEq

/-- The `Contig` object: its record, its appendable collection of stored
HSPs, and the `has_relative` flag.  (`Contig.__init__` also assigns an
`annotation` dictionary, which no function verified here ever reads.) -/
structure Contig where
  record : SeqRecord
  hsps : List SeqRange
  has_relative : Bool
deriving DecidableEq

/-- `AnchorHSPs` named tuple: `(relative, most_5prime, most_3prime)`. -/
structure AnchorHSPs where
  relative : String
  most_5prime : SeqRange
  most_3prime : SeqRange
deriving DecidableEq

/-- Modelled from the spec: the `Predicted` terminal outcome of the ORF
predictor (spec §4.5) — an interval, frame, strand and missing-5' flag.
The source never constructs such a value (its prediction sections are
empty), so this type only names the outcome the spec describes. -/
structure Prediction where
  interval : Int × Int
  frame : Int
  strand : String
  missing5prime : Bool
deriving DecidableEq

/-- `DEFAULT_MIN_EXPECT = 10`. -/
def DEFAULT_MIN_EXPECT : ℚ := 10

/-- Python 2 `/` on integers: floor division; division by zero raises
`ZeroDivisionError`. -/
def py2Div (a b : Int) : Except PyErr Int :=
  if b = 0 then Except.error PyErr.zeroDivisionError else Except.ok (Int.fdiv a b)

/-- A `collections.Counter` keyed by booleans, as used in
`inconsistent_strand`: how many times `True` and `False` were counted. -/
structure Py2Counter where
  trueCount : Nat
  falseCount : Nat
deriving DecidableEq

/-- Python 2 evaluation of `n >= counter` for an `int` `n` and a `Counter`
object: in Python 2, a number compares less than any object of any
non-numeric type, so this cross-type comparison is always `False`
(line 214 of `contig.py` compares `inconsistent_strand[True]` with the
`Counter` itself, not with `inconsistent_strand[False]`). -/
def py2IntGeCounter (_n : Nat) (_c : Py2Counter) : Bool := false

/-- Lexicographic order on strings by code point, the order Python 2 uses
to compare `str` values (written out over the character lists so that it
evaluates inside the kernel). -/
def strLt : List Char → List Char → Bool
  | [], [] => false
  | [], _ :: _ => true
  | _ :: _, [] => false
  | x :: xs, y :: ys =>
    if x.val.toNat < y.val.toNat then true
    else if y.val.toNat < x.val.toNat then false
    else strLt xs ys

/-- Stable insertion of a `(relative, frame, identities)` triple into a
list sorted by relative: the new element goes before the first strictly
greater key, hence after earlier elements with an equal key. -/
def insertByRel (x : String × Int × Nat) : List (String × Int × Nat) → List (String × Int × Nat)
  | [] => [x]
  | y :: ys => if strLt y.1.data x.1.data then y :: insertByRel x ys else x :: y :: ys

/-- `sorted(frames, key=itemgetter(0))`: a stable sort by relative name. -/
def sortByRelative : List (String × Int × Nat) → List (String × Int × Nat)
  | [] => []
  | x :: xs => insertByRel x (sortByRelative xs)

/-- `itertools.groupby` by the first component: groups maximal runs of
consecutive triples sharing a relative name. -/
def groupConsec : List (String × Int × Nat) → List (List (String × Int × Nat))
  | [] => []
  | x :: xs =>
    match groupConsec xs with
    | [] => [[x]]
    | [] :: gs => [x] :: [] :: gs
    | (y :: g) :: gs =>
      if x.1 = y.1 then (x :: y :: g) :: gs else [x] :: (y :: g) :: gs

/-- `sorted(range(len(hsps)), key=lambda k: hsps.end[k], reverse=True)[0]`:
the element at the first index attaining the maximal `end` (Python's sort
is stable, and stable descending sort keeps the first maximum first).
`None` models the `IndexError` of indexing an empty sort. -/
def first_max_end : List SeqRange → Option SeqRange
  | [] => none
  | x :: xs =>
    match first_max_end xs with
    | none => some x
    | some y => if x.stop < y.stop then some y else some x

/-- `sorted(range(len(hsps)), key=lambda k: hsps.start[k])[0]`: the element
at the first index attaining the minimal `start`. -/
def first_min_start : List SeqRange → Option SeqRange
  | [] => none
  | x :: xs =>
    match first_min_start xs with
    | none => some x
    | some y => if y.start < x.start then some y else some x

/-- Adding `v` to key `k` of a counter kept as an association list in
first-occurrence order (the behaviour of `Counter[k] += v`). -/
def bump : List (Int × Nat) → Int → Nat → List (Int × Nat)
  | [], k, v => [(k, v)]
  | (k', v') :: t, k, v => if k' = k then (k', v' + v) :: t else (k', v') :: bump t k v

/-- Looking a key up in such a counter (`Counter[k]`, default 0). -/
def lookupV : List (Int × Nat) → Int → Nat
  | [], _ => 0
  | (k', v) :: t, k => if k' = k then v else lookupV t k

/-- The first entry attaining the maximal count, or `none` on the empty
list: a later entry replaces the current best only when strictly
greater.  `Counter.most_common(1)[0]` agrees with this whenever the
maximal count is attained by a single key (CPython leaves the order of
equal counts unspecified; every theorem below that touches this function
is in the unique-maximum case, where all tie-breaks agree). -/
def maxEntry : List (Int × Nat) → Option (Int × Nat)
  | [] => none
  | e :: t =>
    match maxEntry t with
    | none => some e
    | some e' => if e.2 < e'.2 then some e' else some e

/-- `frames.most_common(1)[0][0]` under the convention of `maxEntry`. -/
def most_common1 (l : List (Int × Nat)) : Option Int :=
  (maxEntry l).map Prod.fst

/-- The record `hspToSeqRange` stores when every check passes: lines
94–106 of `contig.py` — 0-based coordinates `query_start - 1` and
`query_end - 1`, strand from the sign of the first frame, the contig's
id and length, and the `_HSP_to_dict` payload joined with the relative
and the alignment title. -/
def convertedSeqRange (seqname : String) (seqlength : Int) (relative title : String)
    (hsp : BlastHSP) : SeqRange :=
  { start := hsp.query_start - 1
    stop := hsp.query_end - 1
    seqname := seqname
    strand := if hsp.frame.1 < 0 then "-" else "+"
    seqlength := seqlength
    expect := hsp.expect
    identities := hsp.identities
    align_length := hsp.align_length
    percent_identity := (hsp.identities : ℚ) / (hsp.align_length : ℚ)
    sbjct_start := hsp.sbjct_start
    sbjct_end := hsp.sbjct_end
    frame := hsp.frame.1
    relative := relative
    title := title }

/-- Processing of one HSP inside the `add_alignment` loop, including the
`assert(qstart <= qend)` of line 98 and the two asserts of
`_HSP_to_dict` (`hsp.frame[1] is 0`, `hsp.sbjct_start < hsp.sbjct_end`);
`identities/float(align_length)` raises `ZeroDivisionError` when
`align_length` is 0. -/
def hspToSeqRange (seqname : String) (seqlength : Int) (relative title : String)
    (hsp : BlastHSP) : Except PyErr SeqRange :=
  if ¬ (hsp.query_start - 1 ≤ hsp.query_end - 1) then Except.error PyErr.assertionError
  else if ¬ (hsp.frame.2 = 0) then Except.error PyErr.assertionError
  else if ¬ (hsp.sbjct_start < hsp.sbjct_end) then Except.error PyErr.assertionError
  else if hsp.align_length = 0 then Except.error PyErr.zeroDivisionError
  else Except.ok (convertedSeqRange seqname seqlength relative title hsp)

/-- The `for hsp in best_alignment.hsps` loop of `add_alignment`: HSPs are
appended in order; a raised assertion propagates, leaving the records
appended so far in place (Python list mutation) and `has_relative`
untouched. -/
def addLoop (c : Contig) (relative title : String) : List BlastHSP → Contig × Option PyErr
  | [] => (c, none)
  | hsp :: rest =>
    match hspToSeqRange c.record.id (c.record.seq.length : Int) relative title hsp with
    | Except.error e => (c, some e)
    | Except.ok r => addLoop { c with hsps := c.hsps ++ [r] } relative title rest

/-- `Contig.add_alignment`: with no alignments nothing happens; otherwise
the best alignment's HSPs are converted and appended, and `has_relative`
is set to `True` after the loop completes.  The second component records
the exception propagating out of the call, if any. -/
def add_alignment (c : Contig) (relative : String) (br : BlastRecord) : Contig × Option PyErr :=
  match br.alignments with
  | [] => (c, none)
  | best :: _ =>
    match addLoop c relative best.title best.hsps with
    | (c', none) => ({ c' with has_relative := true }, none)
    | (c', some e) => (c', some e)

/-- The expect filter every query method starts with:
`filter(lambda x: x['expect'] <= min_expect, self.hsps)`. -/
def expectFiltered (c : Contig) (min_expect : ℚ) : List SeqRange :=
  c.hsps.filter (fun h => decide (h.expect ≤ min_expect))

/-- `Contig.inconsistent_strand` (lines 196–214): filter by expect, map
each record to `(relative, frame, identities)`, sort by relative, group
by relative; each group contributes `len(set(strands)) > 1` to a
boolean-keyed `Counter`, where `strands` is `[f/abs(f) for f in frames]`
(Python 2 integer division; `f = 0` would raise `ZeroDivisionError`).
The final line compares the `True` count with the `Counter` object
itself — see `py2IntGeCounter`. -/
def inconsistent_strand (c : Contig) (min_expect : ℚ) : Except PyErr Bool :=
  let frames := (expectFiltered c min_expect).map (fun h => (h.relative, h.frame, h.identities))
  let groups := groupConsec (sortByRelative frames)
  match groups.mapM (fun g => (g.map (fun t => t.2.1)).mapM (fun f => py2Div f |f|)) with
  | Except.error e => Except.error e
  | Except.ok strandLists =>
    let cnt := strandLists.foldl
      (fun (acc : Py2Counter) strands =>
        if strands.dedup.length > 1 then
          { acc with trueCount := acc.trueCount + 1 }
        else
          { acc with falseCount := acc.falseCount + 1 })
      ⟨0, 0⟩
    Except.ok (py2IntGeCounter cnt.trueCount cnt)

/-- `Contig.get_strand` (lines 138–153): `None` if `has_relative` is false
or `inconsistent_strand` holds; otherwise the asserted-single strand of
the expect-filtered records (`assert(len(set(strands)) == 1)` raises
`AssertionError` when the filtered records use zero or two strands). -/
def get_strand (c : Contig) (min_expect : ℚ) : Except PyErr (Option String) :=
  if !c.has_relative then Except.ok none
  else
    match inconsistent_strand c min_expect with
    | Except.error e => Except.error e
    | Except.ok true => Except.ok none
    | Except.ok false =>
      let strands := (expectFiltered c min_expect).map (fun h => h.strand)
      if strands.dedup.length = 1 then Except.ok strands.head?
      else Except.error PyErr.assertionError

/-- `Contig.get_anchor_HSPs` (lines 111–136): `None` without a relative;
otherwise a filtered view is built (and never used — the extremal records
are taken over the whole collection), `i` is the first index of maximal
`end` and `j` the first index of minimal `start`, and the anchor pair is
oriented by `get_strand`. -/
def get_anchor_HSPs (c : Contig) (min_expect : ℚ) : Except PyErr (Option AnchorHSPs) :=
  if !c.has_relative then Except.ok none
  else
    let _filtered_hsps := expectFiltered c min_expect
    match first_max_end c.hsps, first_min_start c.hsps with
    | some hi, some hj =>
      (match get_strand c min_expect with
       | Except.error e => Except.error e
       | Except.ok s =>
         if s = some "-" then Except.ok (some ⟨hi.relative, hi, hj⟩)
         else Except.ok (some ⟨hj.relative, hj, hi⟩))
    | _, _ => Except.error PyErr.indexError

/-- `Contig.count_frames` (lines 155–168): a `Counter` mapping each frame
of an expect-passing record to the summed `identities` carried by that
frame, built in first-occurrence order. -/
def count_frames (c : Contig) (min_expect : ℚ) : List (Int × Nat) :=
  (expectFiltered c min_expect).foldl (fun acc h => bump acc h.frame h.identities) []

/-- `Contig.majority_frame` (lines 170–182): `None` without a relative or
with an empty tally; otherwise the frame with the most identities. -/
def majority_frame (c : Contig) (min_expect : ℚ) : Option Int :=
  if !c.has_relative then none
  else
    let frames := count_frames c min_expect
    if frames.length ≠ 0 then most_common1 frames else none

/-- `Contig.any_frameshift` (lines 184–194): `None` without a relative or
with an empty tally; otherwise whether the tally has more than one
distinct frame key. -/
def any_frameshift (c : Contig) (min_expect : ℚ) : Option Bool :=
  if !c.has_relative then none
  else
    let frames := count_frames c min_expect
    if frames.length ≠ 0 then some (decide ((frames.map Prod.fst).dedup.length > 1))
    else none

/-- `Contig.majority_frameshift` (lines 216–249): `None` without a
relative; otherwise group the expect-filtered records by relative, add
each relative's summed identities to the `True` bucket when its frame
set has cardinality above one and to the `False` bucket otherwise, and
return `frameshifts[True] >= frameshifts[False]`. -/
def majority_frameshift (c : Contig) (min_expect : ℚ) : Option Bool :=
  if !c.has_relative then none
  else
    let frames := (expectFiltered c min_expect).map (fun h => (h.relative, h.frame, h.identities))
    let groups := groupConsec (sortByRelative frames)
    let cnt := groups.foldl
      (fun (acc : Nat × Nat) g =>
        let hasMult := (g.map (fun t => t.2.1)).dedup.length > 1
        let s := (g.map (fun t => t.2.2)).sum
        if hasMult then (acc.1 + s, acc.2) else (acc.1, acc.2 + s))
      (0, 0)
    some (decide (cnt.2 ≤ cnt.1))

/-- Modelled from the spec: `SeqRange.width` comes from the external
BioRanges library, which is not part of this repository's sources.  The
spec (§4.4) specifies the value the `missing_5prime` formula reads
(`query_width`) as the contig length, which is the `seqlength` the
record was constructed with. -/
def SeqRange.width (r : SeqRange) : Int := r.seqlength

/-- Modelled from the spec: BioRanges'
`SeqRange.forward_coordinate_transform` is not part of this repository's
sources; §4.1 of the spec maps an interval `[s, e)` on a sequence of
length `L` to `[L - e, L - s)` with the strand flipped. -/
def forward_coordinate_transform (r : SeqRange) : SeqRange :=
  { r with
    start := r.seqlength - r.stop
    stop := r.seqlength - r.start
    strand := if r.strand = "-" then "+" else "-" }

/-- `Contig.missing_5prime` (lines 251–293): `None` without a relative;
otherwise unpack the anchor triple (unpacking `None` would raise
`TypeError`), then on the minus strand compare `start` with `qs_thresh`,
and otherwise compare `abs(start - width) + 1` with `qs_thresh`; in both
branches also require `sbjct_start >= ss_thresh`. -/
def missing_5prime (c : Contig) (qs_thresh ss_thresh min_expect : ℚ) :
    Except PyErr (Option Bool) :=
  if !c.has_relative then Except.ok none
  else
    match get_anchor_HSPs c min_expect with
    | Except.error e => Except.error e
    | Except.ok none => Except.error PyErr.typeError
    | Except.ok (some a) =>
      let m5 := a.most_5prime
      if m5.strand = "-" then
        Except.ok (some (decide ((m5.start : ℚ) ≤ qs_thresh) &&
          decide (ss_thresh ≤ (m5.sbjct_start : ℚ))))
      else
        let qs : Int := |m5.start - m5.width| + 1
        Except.ok (some (decide ((qs : ℚ) ≤ qs_thresh) &&
          decide (ss_thresh ≤ (m5.sbjct_start : ℚ))))

/-- Python attribute lookup on a `Contig`, restricted to boolean-valued
attributes: `Contig.__init__` assigns only `record`, `annotation`,
`hsps` and `has_relative`, so `has_relative` is the only boolean
attribute a `Contig` ever has, and looking up any other name raises
`AttributeError`. -/
def lookup_bool_attr (c : Contig) (name : String) : Except PyErr Bool :=
  if name = "has_relative" then Except.ok c.has_relative
  else Except.error (PyErr.attributeError name)

/-- `Contig.predict_orf` (lines 296–349).  Its guard reads the attribute
`has_relatives` — a name the class never assigns (`__init__` defines
`has_relative`) — so the lookup raises `AttributeError`.  The remainder
of the body is embedded for completeness: the empty-dictionary lookup of
line 326 always raises `KeyError` when reached, the strand/frame assert
of line 332 looks `strand` up in a two-key dictionary (`KeyError` for
`None`) and divides `frame` by its absolute value (`TypeError` for
`None`), line 343 passes `min_expect` positionally into the `qs_thresh`
slot of `missing_5prime`, and the prediction sections of the source are
empty, so the function ends by returning `None`. -/
def predict_orf (c : Contig) (e_value : Option ℚ) (qs_thresh ss_thresh min_expect : ℚ) :
    Except PyErr (Option Prediction) :=
  match lookup_bool_attr c "has_relatives" with
  | Except.error e => Except.error e
  | Except.ok hasRel =>
    if !hasRel then Except.ok none
    else
      match inconsistent_strand c min_expect with
      | Except.error e => Except.error e
      | Except.ok true => Except.ok none
      | Except.ok false =>
        match get_strand c min_expect with
        | Except.error e => Except.error e
        | Except.ok strand =>
          match get_anchor_HSPs c min_expect with
          | Except.error e => Except.error e
          | Except.ok none => Except.error PyErr.typeError
          | Except.ok (some anch) =>
            let m5 := anch.most_5prime
            let m3 := anch.most_3prime
            match
              (if majority_frameshift c min_expect = some true then
                Except.error PyErr.keyError
              else Except.ok (majority_frame c min_expect) :
                Except PyErr (Option Int)) with
            | Except.error e => Except.error e
            | Except.ok frameO =>
              match
                (match strand with
                 | some "+" => Except.ok (1 : Int)
                 | some "-" => Except.ok (-1 : Int)
                 | _ => Except.error PyErr.keyError : Except PyErr Int) with
              | Except.error e => Except.error e
              | Except.ok sSign =>
                match frameO with
                | none => Except.error PyErr.typeError
                | some frame =>
                  match py2Div frame |frame| with
                  | Except.error e => Except.error e
                  | Except.ok fSign =>
                    if sSign ≠ fSign then Except.error PyErr.assertionError
                    else
                      let _fwd :=
                        if frame < 0 then
                          (forward_coordinate_transform m5, forward_coordinate_transform m3)
                        else (m5, m3)
                      match missing_5prime c min_expect 40 DEFAULT_MIN_EXPECT with
                      | Except.error e => Except.error e
                      | Except.ok _m => Except.ok none

/-! ### Concrete inputs used by the evaluation theorems and witnesses -/

/-- A stored HSP record with the fields the query methods read; the
remaining fields are fixed representative values. -/
def mkHSP (rel : String) (s e : Int) (strand : String) (frame : Int)
    (ident : Nat) (exp : ℚ) (ss : Int) (L : Int) : SeqRange :=
  { start := s, stop := e, seqname := "c", strand := strand, seqlength := L,
    expect := exp, identities := ident, align_length := 100,
    percent_identity := 0, sbjct_start := ss, sbjct_end := ss + 50,
    frame := frame, relative := rel, title := "t" }

/-- A freshly constructed contig: no evidence, `has_relative = False`. -/
def freshContig : Contig :=
  { record := { id := "c1", description := "", seq := "ACGTACGT" },
    hsps := [], has_relative := false }

/-- Contig for claim C2: the expect-passing record `C2pass` is flanked by
`C2fail`, whose expect value 100 fails the default threshold 10 but
which has both the minimal query start and the maximal query end. -/
def C2pass : SeqRange := mkHSP "A" 10 20 "+" 1 50 1 5 60
def C2fail : SeqRange := mkHSP "B" 0 50 "+" 1 5 100 5 60
def C2contig : Contig :=
  { record := { id := "c2", description := "", seq := "ACGTACGT" },
    hsps := [C2pass, C2fail], has_relative := true }

/-- Contig for claim C3: one relative with expect-passing records on both
strands. -/
def C3contig : Contig :=
  { record := { id := "c3", description := "", seq := "ACGTACGT" },
    hsps := [mkHSP "A" 0 10 "+" 1 5 1 5 60, mkHSP "A" 20 30 "-" (-1) 6 1 5 60],
    has_relative := true }

/-- Contig for claim C4: its single evidence-bearing relative is split
across both strands, so split relatives are the (unanimous) majority. -/
def C4contig : Contig :=
  { record := { id := "c4", description := "", seq := "ACGTACGT" },
    hsps := [mkHSP "A" 0 10 "+" 2 7 1 5 60, mkHSP "A" 20 30 "-" (-2) 3 1 5 60],
    has_relative := true }

/-- Anchor record for the C5 witness: forward strand, query start 5, on a
contig of length 200, subject start 50 (past the 40 threshold). -/
def C5hsp : SeqRange := mkHSP "A" 5 100 "+" 1 10 1 50 200
def C5contig : Contig :=
  { record := { id := "c5", description := "", seq := String.mk (List.replicate 200 'A') },
    hsps := [C5hsp], has_relative := true }

/-- Contig for the C6 witness (spec §8 example): relative A in frame 1
with 90 identities, relative B in frame 2 with 10. -/
def C6contig : Contig :=
  { record := { id := "c6", description := "", seq := "ACGTACGT" },
    hsps := [mkHSP "A" 0 50 "+" 1 90 1 5 300, mkHSP "B" 60 90 "+" 2 10 1 5 300],
    has_relative := true }

/-- Contig for claim C7: `has_relative` is true but its only record's
expect value 100 fails the default threshold, so no evidence passes. -/
def C7contig : Contig :=
  { record := { id := "c7", description := "", seq := "ACGTACGT" },
    hsps := [mkHSP "A" 0 10 "+" 1 5 100 5 60], has_relative := true }

/-- BLAST input for claim C8: a single HSP with 1-based query coordinates
1..10. -/
def C8hsp : BlastHSP :=
  { query_start := 1, query_end := 10, sbjct_start := 1, sbjct_end := 5,
    frame := (1, 0), expect := 1, identities := 8, align_length := 10 }
def C8record : BlastRecord := ⟨[⟨"subject-title", [C8hsp]⟩]⟩

/-- BLAST input for claim C9: second frame 0 and subject start 1 < subject
end 5, so both stated input contracts hold — but query start 10 exceeds
query end 5. -/
def C9hsp : BlastHSP :=
  { query_start := 10, query_end := 5, sbjct_start := 1, sbjct_end := 5,
    frame := (1, 0), expect := 1, identities := 3, align_length := 10 }
def C9record : BlastRecord := ⟨[⟨"subject-title", [C9hsp]⟩]⟩

/-! ### The strand-consistency decision as the spec states it -/

/-- The sign of a frame value as the spec reads it (`sign(frame)`). -/
def strandSign (f : Int) : Int := if f < 0 then -1 else 1

/-- The strand-consistency decision in the spec's words, stated for
comparison with `inconsistent_strand`: group the expect-filtered records
by relative; a relative is split when its records use more than one
strand sign; the result is whether split relatives are the majority
among relatives contributing filtered evidence. -/
def spec_inconsistent_strand (c : Contig) (min_expect : ℚ) : Bool :=
  let frames := (expectFiltered c min_expect).map (fun h => (h.relative, h.frame, h.identities))
  let groups := groupConsec (sortByRelative frames)
  let split := (groups.filter
    (fun g => decide ((g.map (fun t => strandSign t.2.1)).dedup.length > 1))).length
  decide (groups.length < 2 * split)

/-! ### Claim theorems -/

/-- Claim C1 (code_bug evidence): on a freshly constructed contig — whose
`has_relative` flag is false — `predict_orf` does not return the
`NoPrediction` value `None`; it raises `AttributeError`, because its
guard reads the attribute `has_relatives` that `Contig.__init__` never
assigns (it assigns `has_relative`). -/
theorem predict_orf_fresh_contig_raises :
    predict_orf freshContig none 16 40 10 =
      Except.error (PyErr.attributeError "has_relatives") := by rfl

/-- Claim C10: for every contig and all argument values, `predict_orf`
raises `AttributeError` on the undefined attribute `has_relatives`
before performing any prediction step, and consequently never returns a
`Predicted` outcome. -/
theorem predict_orf_always_raises_attribute_error (c : Contig) (e_value : Option ℚ)
    (qs_thresh ss_thresh min_expect : ℚ) :
    predict_orf c e_value qs_thresh ss_thresh min_expect =
        Except.error (PyErr.attributeError "has_relatives") ∧
      ∀ p : Prediction,
        predict_orf c e_value qs_thresh ss_thresh min_expect ≠ Except.ok (some p) := by
  have h0 : predict_orf c e_value qs_thresh ss_thresh min_expect =
      Except.error (PyErr.attributeError "has_relatives") := rfl
  refine ⟨h0, ?_⟩
  intro p hp
  rw [h0] at hp
  exact Except.noConfusion hp

/-- Claim C2 (code_bug evidence): on `C2contig`, whose record `C2fail`
fails the expect filter (expect 100 > 10) but carries both the minimal
query start and the maximal query end, `get_anchor_HSPs` returns
`C2fail` as both anchors — the extremal records are taken over the whole
collection, not over the expect-passing set the filter of line 123
builds and discards. -/
theorem get_anchor_HSPs_returns_expect_failing_record :
    get_anchor_HSPs C2contig DEFAULT_MIN_EXPECT =
        Except.ok (some ⟨"B", C2fail, C2fail⟩) ∧
      ¬ (C2fail.expect ≤ DEFAULT_MIN_EXPECT) := by
  exact ⟨rfl, by decide⟩

/-- Claim C3 (code_bug evidence): on `C3contig`, whose expect-filtered
records lie on both strands, `get_strand` raises `AssertionError` at
`assert(len(set(strands)) == 1)` instead of returning `None` — the
`inconsistent_strand` guard that was meant to catch this case always
returns `False` (Python 2 comparison of an int with a `Counter`). -/
theorem get_strand_mixed_strands_raises :
    get_strand C3contig DEFAULT_MIN_EXPECT = Except.error PyErr.assertionError := by rfl

/-- Claim C4 (code_bug evidence): on `C4contig`, whose single
evidence-bearing relative is split across both strands (so split
relatives are the majority and the spec-stated decision is `true`), the
code's `inconsistent_strand` returns `False`: its final line compares
`inconsistent_strand[True]` with the `Counter` object itself, which in
Python 2 is always `False`. -/
theorem inconsistent_strand_code_vs_spec :
    inconsistent_strand C4contig DEFAULT_MIN_EXPECT = Except.ok false ∧
      spec_inconsistent_strand C4contig DEFAULT_MIN_EXPECT = true := by
  exact ⟨rfl, by rfl⟩

/-- Claim C7 (code_bug evidence): on `C7contig` — `has_relative` is true
but its only record's expect value 100 fails the threshold 10 —
`majority_frame` and `any_frameshift` return the absent value `None` as
claimed, but `get_strand` raises `AssertionError` (the empty strand list
fails the cardinality-1 assert) and `majority_frameshift` returns the
definite answer `True` (`0 >= 0` on the two empty buckets). -/
theorem no_passing_evidence_behaviour :
    majority_frame C7contig DEFAULT_MIN_EXPECT = none ∧
      any_frameshift C7contig DEFAULT_MIN_EXPECT = none ∧
      get_strand C7contig DEFAULT_MIN_EXPECT = Except.error PyErr.assertionError ∧
      majority_frameshift C7contig DEFAULT_MIN_EXPECT = some true := by
  exact ⟨rfl, rfl, rfl, rfl⟩

/-- Claim C8 counterexample: ingesting an HSP with BLAST 1-based query
coordinates 1..10, the stored record's query coordinates are start 0 and
end 9 — the stored end is `query_end - 1`, not the half-open `query_end`
= 10 the claim states. -/
theorem stored_interval_end_is_not_query_end :
    ((add_alignment freshContig "A" C8record).1.hsps.map (fun r => (r.start, r.stop)))
        = [(0, 9)] ∧
      ¬ (((add_alignment freshContig "A" C8record).1.hsps.map (fun r => (r.start, r.stop)))
        = [(0, 10)]) := by
  exact ⟨rfl, by decide⟩

/-- Claim C9 counterexample: `C9hsp` has second frame 0 and subject start
1 < subject end 5 — it satisfies both input contracts the claim names —
yet `add_alignment` aborts with `AssertionError` (its query start 10
exceeds its query end 5, tripping `assert(qstart <= qend)`) and stores
nothing. -/
theorem add_alignment_aborts_despite_contracts :
    C9hsp.frame.2 = 0 ∧ C9hsp.sbjct_start < C9hsp.sbjct_end ∧
      (add_alignment freshContig "A" C9record).2 = some PyErr.assertionError ∧
      (add_alignment freshContig "A" C9record).1.hsps = [] := by
  exact ⟨rfl, by decide, rfl, rfl⟩

/-- Claim C8 amended: for every ingested HSP passing all of
`add_alignment`'s checks, the stored record's query coordinates are
start `query_start - 1` and end `query_end - 1` — both 1-based endpoints
shifted down by one. -/
theorem stored_interval_coordinates (c : Contig) (rel title : String) (hsp : BlastHSP)
    (h1 : hsp.query_start ≤ hsp.query_end) (h2 : hsp.frame.2 = 0)
    (h3 : hsp.sbjct_start < hsp.sbjct_end) (h4 : hsp.align_length ≠ 0) :
    (add_alignment c rel ⟨[⟨title, [hsp]⟩]⟩).1.hsps =
        c.hsps ++ [convertedSeqRange c.record.id (c.record.seq.length : Int) rel title hsp] ∧
      (convertedSeqRange c.record.id (c.record.seq.length : Int) rel title hsp).start =
        hsp.query_start - 1 ∧
      (convertedSeqRange c.record.id (c.record.seq.length : Int) rel title hsp).stop =
        hsp.query_end - 1 := by
  have hq : hsp.query_start - 1 ≤ hsp.query_end - 1 := by omega
  refine ⟨?_, rfl, rfl⟩
  simp [add_alignment, addLoop, hspToSeqRange, hq, h2, h3, h4]

/-- Witness for the amended C8 theorem at the concrete record `C8hsp`
(query coordinates 1..10): the stored coordinates are 0 and 9. -/
theorem stored_interval_coordinates_witness :
    (add_alignment freshContig "A" ⟨[⟨"subject-title", [C8hsp]⟩]⟩).1.hsps =
        freshContig.hsps ++ [convertedSeqRange freshContig.record.id
          (freshContig.record.seq.length : Int) "A" "subject-title" C8hsp] ∧
      (convertedSeqRange freshContig.record.id (freshContig.record.seq.length : Int)
        "A" "subject-title" C8hsp).start = C8hsp.query_start - 1 ∧
      (convertedSeqRange freshContig.record.id (freshContig.record.seq.length : Int)
        "A" "subject-title" C8hsp).stop = C8hsp.query_end - 1 :=
  stored_interval_coordinates freshContig "A" "subject-title" C8hsp
    (by decide) rfl (by decide) (by decide)

/-- Claim C9 amended: for a single-HSP alignment, `add_alignment`
completes without an exception exactly when the HSP's query start is at
most its query end, its second frame value is 0, its subject start is
below its subject end, and its alignment length is nonzero; when it
completes, the converted record is appended, and otherwise nothing is
stored. -/
theorem add_alignment_single_hsp_contract (c : Contig) (rel title : String) (hsp : BlastHSP) :
    ((add_alignment c rel ⟨[⟨title, [hsp]⟩]⟩).2 = none ↔
        (hsp.query_start ≤ hsp.query_end ∧ hsp.frame.2 = 0 ∧
          hsp.sbjct_start < hsp.sbjct_end ∧ hsp.align_length ≠ 0)) ∧
      (add_alignment c rel ⟨[⟨title, [hsp]⟩]⟩).1.hsps =
        (if hsp.query_start ≤ hsp.query_end ∧ hsp.frame.2 = 0 ∧
            hsp.sbjct_start < hsp.sbjct_end ∧ hsp.align_length ≠ 0 then
          c.hsps ++ [convertedSeqRange c.record.id (c.record.seq.length : Int) rel title hsp]
        else c.hsps) := by
  by_cases h1 : hsp.query_start ≤ hsp.query_end
  · have hq : hsp.query_start - 1 ≤ hsp.query_end - 1 := by omega
    by_cases h2 : hsp.frame.2 = 0
    · by_cases h3 : hsp.sbjct_start < hsp.sbjct_end
      · by_cases h4 : hsp.align_length = 0
        · simp [add_alignment, addLoop, hspToSeqRange, hq, h1, h2, h3, h4]
        · simp [add_alignment, addLoop, hspToSeqRange, hq, h1, h2, h3, h4]
      · simp [add_alignment, addLoop, hspToSeqRange, hq, h1, h2, h3]
    · simp [add_alignment, addLoop, hspToSeqRange, hq, h1, h2]
  · have hq : ¬ (hsp.query_start - 1 ≤ hsp.query_end - 1) := by omega
    simp [add_alignment, addLoop, hspToSeqRange, hq, h1]

/-- Claim C5: for every contig whose 5'-most anchor record is on the
forward strand and carries the contig's length as its `seqlength`,
`missing_5prime` computes `qs = |query_start - L| + 1` (with `L` the
contig length, the spec-modelled reading of `width`) and reports missing
exactly when `qs` is at most `qs_thresh` and the anchor's subject start
is at least `ss_thresh`. -/
theorem missing_5prime_forward_formula (c : Contig) (qsT ssT me : ℚ) (a : AnchorHSPs)
    (hrel : c.has_relative = true)
    (hanch : get_anchor_HSPs c me = Except.ok (some a))
    (hstrand : a.most_5prime.strand = "+")
    (hlen : a.most_5prime.seqlength = (c.record.seq.length : Int)) :
    missing_5prime c qsT ssT me =
      Except.ok (some
        (decide (((|a.most_5prime.start - (c.record.seq.length : Int)| + 1 : Int) : ℚ) ≤ qsT) &&
          decide (ssT ≤ (a.most_5prime.sbjct_start : ℚ)))) := by
  unfold missing_5prime
  rw [hrel, hanch]
  simp [SeqRange.width, hstrand, hlen]

set_option maxRecDepth 8000 in
/-- Witness for the C5 theorem at the spec's own example: anchor query
start 5 on a contig of length 200 gives `qs = 196 > 16`, so the result
is not-missing even though the subject start 50 passes the threshold
40. -/
theorem missing_5prime_forward_formula_witness :
    missing_5prime C5contig 16 40 10 = Except.ok (some false) := by
  have h := missing_5prime_forward_formula C5contig 16 40 10 ⟨"A", C5hsp, C5hsp⟩
    rfl rfl rfl (by rfl)
  rw [h]
  rfl

/-! ### Lemmas about the frame tally, for claim C6 -/

/-- `bump` changes only the bumped key's count. -/
theorem bump_lookupV (l : List (Int × Nat)) (k : Int) (v : Nat) (k' : Int) :
    lookupV (bump l k v) k' = if k' = k then lookupV l k' + v else lookupV l k' := by
  induction l with
  | nil =>
    by_cases h : k' = k
    · subst h; simp [bump, lookupV]
    · have h2 : ¬ k = k' := fun hh => h hh.symm
      simp [bump, lookupV, h, h2]
  | cons hd tl ih =>
    obtain ⟨a, b⟩ := hd
    by_cases hak : a = k
    · subst hak
      by_cases h : k' = a
      · subst h; simp [bump, lookupV]
      · have h2 : ¬ a = k' := fun hh => h hh.symm
        simp [bump, lookupV, h, h2]
    · by_cases h2 : a = k'
      · subst h2
        simp [bump, lookupV, hak]
      · simp [bump, lookupV, hak, h2, ih]

/-- The count of key `k` after folding a record list into the tally is the
sum of `identities` over the records carrying frame `k`. -/
theorem foldl_bump_lookupV (l : List SeqRange) (acc : List (Int × Nat)) (k : Int) :
    lookupV (l.foldl (fun a r => bump a r.frame r.identities) acc) k =
      lookupV acc k +
        ((l.filter (fun r => decide (r.frame = k))).map (fun r => r.identities)).sum := by
  induction l generalizing acc with
  | nil => simp
  | cons hd tl ih =>
    simp only [List.foldl_cons, List.filter_cons]
    rw [ih, bump_lookupV]
    by_cases h : k = hd.frame
    · simp [h]
      omega
    · have h2 : ¬ hd.frame = k := fun hh => h hh.symm
      simp [h, h2]

/-- A key is in the keys of `bump l k v` exactly when it is `k` or was
already a key of `l`. -/
theorem mem_bump_keys (l : List (Int × Nat)) (k : Int) (v : Nat) (x : Int) :
    x ∈ (bump l k v).map Prod.fst ↔ (x ∈ l.map Prod.fst ∨ x = k) := by
  induction l with
  | nil => simp [bump]
  | cons hd tl ih =>
    obtain ⟨a, b⟩ := hd
    by_cases hak : a = k
    · subst hak
      have hb : bump ((a, b) :: tl) a v = (a, b + v) :: tl := by simp [bump]
      rw [hb]
      simp only [List.map_cons, List.mem_cons]
      constructor
      · exact fun h => Or.inl h
      · rintro (h | h)
        · exact h
        · exact Or.inl h
    · simp only [bump, if_neg hak, List.map_cons, List.mem_cons, ih]
      tauto

/-- `bump` preserves distinctness of the tally's keys. -/
theorem bump_keys_nodup (l : List (Int × Nat)) (k : Int) (v : Nat)
    (h : (l.map Prod.fst).Nodup) : ((bump l k v).map Prod.fst).Nodup := by
  induction l with
  | nil => simp [bump]
  | cons hd tl ih =>
    obtain ⟨a, b⟩ := hd
    simp only [List.map_cons, List.nodup_cons] at h
    by_cases hak : a = k
    · subst hak
      simpa [bump, List.nodup_cons] using h
    · simp only [bump, hak, if_false, List.map_cons, List.nodup_cons]
      refine ⟨?_, ih h.2⟩
      rw [mem_bump_keys]
      rintro (hmem | heq)
      · exact h.1 hmem
      · exact hak heq

/-- Folding records into a tally with distinct keys keeps the keys
distinct. -/
theorem foldl_bump_nodup (l : List SeqRange) (acc : List (Int × Nat))
    (h : (acc.map Prod.fst).Nodup) :
    (((l.foldl (fun a r => bump a r.frame r.identities) acc)).map Prod.fst).Nodup := by
  induction l generalizing acc with
  | nil => simpa using h
  | cons hd tl ih => exact ih _ (bump_keys_nodup acc hd.frame hd.identities h)

/-- A key with a nonzero count is an entry of the tally. -/
theorem lookupV_pos_mem (l : List (Int × Nat)) (k : Int) (h : lookupV l k ≠ 0) :
    (k, lookupV l k) ∈ l := by
  induction l with
  | nil => simp [lookupV] at h
  | cons hd tl ih =>
    obtain ⟨a, b⟩ := hd
    by_cases hak : a = k
    · subst hak
      simp [lookupV]
    · rw [show lookupV ((a, b) :: tl) k = lookupV tl k from if_neg hak] at h ⊢
      exact List.mem_cons.mpr (Or.inr (ih h))

/-- With distinct keys, an entry's count is what `lookupV` returns. -/
theorem mem_lookupV (l : List (Int × Nat)) (k : Int) (v : Nat)
    (hnd : (l.map Prod.fst).Nodup) (hm : (k, v) ∈ l) : lookupV l k = v := by
  induction l with
  | nil => simp at hm
  | cons hd tl ih =>
    obtain ⟨a, b⟩ := hd
    simp only [List.map_cons, List.nodup_cons] at hnd
    rcases List.mem_cons.mp hm with heq | htl
    · obtain ⟨h1, h2⟩ := Prod.mk.injEq .. ▸ heq
      subst h1; subst h2
      simp [lookupV]
    · have hak : ¬ a = k := by
        intro h'
        subst h'
        exact hnd.1 (List.mem_map_of_mem Prod.fst htl)
      simp only [lookupV, hak, if_false]
      exact ih hnd.2 htl

/-- `maxEntry` returns an entry of the list. -/
theorem maxEntry_mem (l : List (Int × Nat)) (e : Int × Nat) (h : maxEntry l = some e) :
    e ∈ l := by
  induction l generalizing e with
  | nil => simp [maxEntry] at h
  | cons hd tl ih =>
    cases h' : maxEntry tl with
    | none =>
      simp only [maxEntry, h'] at h
      exact List.mem_cons.mpr (Or.inl (Option.some.inj h).symm)
    | some e' =>
      simp only [maxEntry, h'] at h
      by_cases hc : hd.2 < e'.2
      · rw [if_pos hc] at h
        have he : e = e' := (Option.some.inj h).symm
        subst he
        exact List.mem_cons.mpr (Or.inr (ih e h'))
      · rw [if_neg hc] at h
        exact List.mem_cons.mpr (Or.inl (Option.some.inj h).symm)

/-- When one entry's count strictly dominates every other key's count and
the keys are distinct, `maxEntry` returns that entry — every tie-break
agrees on a unique maximum. -/
theorem maxEntry_unique (l : List (Int × Nat)) (F : Int) (vF : Nat)
    (hm : (F, vF) ∈ l) (hmax : ∀ e ∈ l, e.1 ≠ F → e.2 < vF)
    (hnd : (l.map Prod.fst).Nodup) : maxEntry l = some (F, vF) := by
  induction l with
  | nil => simp at hm
  | cons hd tl ih =>
    simp only [List.map_cons, List.nodup_cons] at hnd
    rcases List.mem_cons.mp hm with heq | htl
    · subst heq
      cases h' : maxEntry tl with
      | none => simp [maxEntry, h']
      | some e' =>
        have he' : e' ∈ tl := maxEntry_mem tl e' h'
        have hne : e'.1 ≠ F := by
          intro hc
          have hmem2 : e'.1 ∈ List.map Prod.fst tl := List.mem_map_of_mem Prod.fst he'
          rw [hc] at hmem2
          exact hnd.1 hmem2
        have hlt : e'.2 < vF := hmax e' (List.mem_cons.mpr (Or.inr he')) hne
        simp only [maxEntry, h']
        rw [if_neg (by omega)]
    · have hhd : hd.1 ≠ F := by
        intro hc
        have hmem2 : F ∈ List.map Prod.fst tl := by
          simpa using List.mem_map_of_mem Prod.fst htl
        apply hnd.1
        rw [hc]
        exact hmem2
      have hlt : hd.2 < vF := hmax hd (List.mem_cons.mpr (Or.inl rfl)) hhd
      have ihr : maxEntry tl = some (F, vF) :=
        ih htl (fun e he hne => hmax e (List.mem_cons.mpr (Or.inr he)) hne) hnd.2
      simp only [maxEntry, ihr]
      rw [if_pos hlt]

/-- Nat sums over a filtered map grow with the filter. -/
theorem sum_filter_le (p q : SeqRange → Bool) (l : List SeqRange)
    (h : ∀ x ∈ l, p x = true → q x = true) :
    ((l.filter p).map (fun r => r.identities)).sum ≤
      ((l.filter q).map (fun r => r.identities)).sum := by
  induction l with
  | nil => simp
  | cons hd tl ih =>
    have ih' := ih (fun x hx => h x (List.mem_cons.mpr (Or.inr hx)))
    simp only [List.filter_cons]
    cases hp : p hd with
    | true =>
      have hq : q hd = true := h hd (List.mem_cons.mpr (Or.inl rfl)) hp
      simp only [hp, hq, if_true, List.map_cons, List.sum_cons]
      omega
    | false =>
      cases hq : q hd with
      | true =>
        simp only [hp, hq, if_true, Bool.false_eq_true, if_false, List.map_cons,
          List.sum_cons]
        omega
      | false =>
        simp only [hp, hq, Bool.false_eq_true, if_false]
        exact ih'

/-- Claim C6: whenever the summed identities of the expect-passing
records carrying frame `F` strictly exceed the summed identities of all
expect-passing records carrying any other frame, `majority_frame`
returns `F`, regardless of how many records carry each frame. -/
theorem majority_frame_identity_majority (c : Contig) (me : ℚ) (F : Int)
    (hrel : c.has_relative = true)
    (hmaj : (((expectFiltered c me).filter (fun r => decide (¬ r.frame = F))).map
          (fun r => r.identities)).sum <
        (((expectFiltered c me).filter (fun r => decide (r.frame = F))).map
          (fun r => r.identities)).sum) :
    majority_frame c me = some F := by
  have hlook : lookupV (count_frames c me) F =
      (((expectFiltered c me).filter (fun r => decide (r.frame = F))).map
        (fun r => r.identities)).sum := by
    simpa [count_frames, lookupV] using foldl_bump_lookupV (expectFiltered c me) [] F
  have hpos : lookupV (count_frames c me) F ≠ 0 := by rw [hlook]; omega
  have hmem0 := lookupV_pos_mem (count_frames c me) F hpos
  rw [hlook] at hmem0
  have hnd : ((count_frames c me).map Prod.fst).Nodup := by
    simpa [count_frames] using foldl_bump_nodup (expectFiltered c me) [] (by simp)
  have hlt : ∀ e ∈ count_frames c me, e.1 ≠ F →
      e.2 < (((expectFiltered c me).filter (fun r => decide (r.frame = F))).map
        (fun r => r.identities)).sum := by
    intro e he hne
    obtain ⟨G, v⟩ := e
    simp only at hne
    have h1 : lookupV (count_frames c me) G = v := mem_lookupV (count_frames c me) G v hnd he
    have h2 : lookupV (count_frames c me) G =
        (((expectFiltered c me).filter (fun r => decide (r.frame = G))).map
          (fun r => r.identities)).sum := by
      simpa [count_frames, lookupV] using foldl_bump_lookupV (expectFiltered c me) [] G
    have h3 : (((expectFiltered c me).filter (fun r => decide (r.frame = G))).map
          (fun r => r.identities)).sum ≤
        (((expectFiltered c me).filter (fun r => decide (¬ r.frame = F))).map
          (fun r => r.identities)).sum := by
      refine sum_filter_le _ _ _ ?_
      intro x _ hpx
      have hxG : x.frame = G := of_decide_eq_true hpx
      have : ¬ x.frame = F := by rw [hxG]; exact hne
      exact decide_eq_true this
    simp only
    omega
  have hmax := maxEntry_unique (count_frames c me) F _ hmem0 hlt hnd
  have hne0 : count_frames c me ≠ [] := by
    intro hc
    rw [hc] at hmem0
    simp at hmem0
  have hlen : (count_frames c me).length ≠ 0 :=
    fun hc => hne0 (List.length_eq_zero.mp hc)
  simp [majority_frame, hrel, hlen, most_common1, hmax]

/-- Witness for the C6 theorem on the spec §8 example: relative A in
frame 1 with 90 identities outweighs relative B in frame 2 with 10, so
the majority frame is 1. -/
theorem majority_frame_identity_majority_witness :
    majority_frame C6contig DEFAULT_MIN_EXPECT = some 1 :=
  majority_frame_identity_majority C6contig DEFAULT_MIN_EXPECT 1 rfl (by decide)

end Findorf
